import Mathlib

/-!
Verification of the trailmixer video pipeline against its specification.

The development shallowly embeds the pipeline's pure decision logic:
* `sanitize_segments` from `app/video.py` (the Segment Validator),
* the validation and audio filter-graph construction of
  `add_music_to_video` from `app/pipeline.py` (the Audio Overlay Mixer),
* the two-tier fast/fallback control flow of segment extraction and
  concatenation in `app/pipeline.py`,
* the concat manifest writer and single-file copy path of
  `stitch_videos_together`,
* the temporary-file bookkeeping and cleanup of
  `crop_and_stitch_video_segments`.

Python floats are modelled as rationals (`ℚ`); the filesystem and the
external ffmpeg engine are modelled as explicit environments recording
which files exist, what each engine invocation produces and whether it
exits successfully.
-/

namespace Trailmixer

/-! ### Segment Validator: `sanitize_segments` (`app/video.py`) -/

/-- A `{start, end}` pair, raw or sanitized — the source keeps both as
Python dicts of the same shape.  The `end` key is rendered as `stop`
because `end` is a Lean keyword. -/
structure Segment where
  start : ℚ
  stop : ℚ
deriving DecidableEq, Repr

/-- One iteration of the loop in `sanitize_segments` (`app/video.py`
lines 27-32): clamp `start` and `end` independently into
`[0, video_duration]` and keep the pair only when `end > start`. -/
def sanitizeKeep (video_duration : ℚ) (seg : Segment) : Option Segment :=
  let start := max 0 (min seg.start video_duration)
  let stop := max 0 (min seg.stop video_duration)
  if stop > start then some ⟨start, stop⟩ else none

/-- Comparison key used by `cleaned.sort(key=lambda s: s["start"])`. -/
def segLe (a b : Segment) : Bool := decide (a.start ≤ b.start)

/-- `sanitize_segments(segments, video_duration)` from `app/video.py`:
clamp to `[0, duration]`, drop non-positive ranges, sort ascending by
`start` (Python's `list.sort` is stable; so is `List.mergeSort`). -/
def sanitize_segments (segments : List Segment) (video_duration : ℚ) :
    List Segment :=
  ((segments.filterMap (sanitizeKeep video_duration)).mergeSort segLe)

/-! ### Audio Overlay Mixer: `add_music_to_video` (`app/pipeline.py`) -/

/-- The timing dict attached to one music track.  In the source it is a
Python dict; `add_music_to_video` reads only the `start` and `end` keys
(raising when one is absent, hence the `Option`s) and never reads any
other key, which we witness with an ignored optional `volume` entry. -/
structure TrackTiming where
  start : Option ℚ
  stop : Option ℚ
  volume : Option ℚ
deriving DecidableEq, Repr

/-- One entry of the `validated_tracks` list built at
`app/pipeline.py` lines 76-81. -/
structure ValidatedTrack where
  path : String
  start : ℚ
  stop : ℚ
  duration : ℚ
deriving DecidableEq, Repr

/-- Errors raised by `add_music_to_video`: `ValueError`s from the
validation section, and the `RuntimeError` wrapping an ffmpeg failure. -/
inductive MixError
  | inputVideoNotFound (path : String)
  | noMusicTracks
  | noOutputPath
  | audioFileNotFound (path : String)
  | missingTimestampKey (trackNo : ℕ)
  | negativeStart (trackNo : ℕ) (start : ℚ)
  | endNotAfterStart (trackNo : ℕ) (stop start : ℚ)
  | ffmpegFailed
deriving DecidableEq, Repr

/-- The validation loop of `add_music_to_video` (`app/pipeline.py`
lines 59-83), iterating over `enumerate(music_tracks.items())`: the
audio file must exist, both timestamp keys must be present, `start`
must be non-negative and `end` must exceed `start`.  Note that no
check is made on either volume argument. -/
def validateTracks (fileExists : String → Bool) :
    List (String × TrackTiming) → ℕ → Except MixError (List ValidatedTrack)
  | [], _ => .ok []
  | (audio_path, timing) :: rest, i =>
    if fileExists audio_path = false then .error (.audioFileNotFound audio_path)
    else
      match timing.start, timing.stop with
      | some s, some e =>
        if s < 0 then .error (.negativeStart (i + 1) s)
        else if e ≤ s then .error (.endNotAfterStart (i + 1) e s)
        else
          match validateTracks fileExists rest (i + 1) with
          | .error err => .error err
          | .ok vs =>
            .ok ({ path := audio_path, start := s, stop := e,
                   duration := e - s } :: vs)
      | _, _ => .error (.missingTimestampKey (i + 1))

/-- One audio filter of a per-track chain, in the order it appears in
the generated `filter_complex` string. -/
inductive AFilter
  | volume (v : ℚ)
  | adelay (leftMs rightMs : ℤ)
  | atrim (startT stopT : ℚ)
deriving DecidableEq, Repr

/-- The filter chain built for one music track. -/
structure TrackChain where
  inputIdx : ℕ
  ops : List AFilter
  label : String
deriving DecidableEq, Repr

/-- The per-track chain of `add_music_to_video` (`app/pipeline.py`
lines 110-128).  `start_delay_ms` is `int(track['start'] * 1000)`,
i.e. the floor for the non-negative validated `start`; the applied
gain is the master `music_volume` alone, and `end_time` is
`duration + start`. -/
def buildTrackChain (music_volume : ℚ) (i : ℕ) (track : ValidatedTrack) :
    TrackChain :=
  let start_delay_ms : ℤ := ⌊track.start * 1000⌋
  let duration_s := track.duration
  let end_time := duration_s + track.start
  { inputIdx := i + 1,
    ops :=
      if 0 < track.start then
        [.volume music_volume, .adelay start_delay_ms start_delay_ms,
          .atrim 0 end_time]
      else
        [.volume music_volume, .atrim 0 duration_s],
    label := "music_" ++ toString i }

/-- The `amix` node of the generated filter graph. -/
structure MixNode where
  inputs : List String
  numInputs : ℕ
  durationPolicy : String
  dropoutTransition : ℕ
deriving DecidableEq, Repr

/-- The mix step of `add_music_to_video` (`app/pipeline.py` lines
130-133): all audio input pads, the gained original audio first, feed
one `amix` whose parameters are
`inputs=N:duration=first:dropout_transition=0`. -/
def buildMixNode (validated_tracks : List ValidatedTrack) : MixNode :=
  let audio_inputs :=
    "original_audio" ::
      (List.range validated_tracks.length).map (fun i => "music_" ++ toString i)
  { inputs := audio_inputs, numInputs := audio_inputs.length,
    durationPolicy := "first", dropoutTransition := 0 }

/-- The whole `filter_complex` graph of `add_music_to_video`
(`app/pipeline.py` lines 102-136): the original audio gained by
`video_volume`, one chain per validated track, and the mix node. -/
structure FilterGraph where
  originalGain : ℚ
  chains : List TrackChain
  mix : MixNode
deriving DecidableEq, Repr

/-- Assembles the graph exactly as the `filter_parts` list is built. -/
def buildFilterGraph (video_volume music_volume : ℚ)
    (validated_tracks : List ValidatedTrack) : FilterGraph :=
  { originalGain := video_volume,
    chains := validated_tracks.mapIdx (fun i t => buildTrackChain music_volume i t),
    mix := buildMixNode validated_tracks }

/-- Modelled from the spec: the output-duration semantics of the
external engine's N-input `amix` filter (spec sections 4.4 and 6; the
engine itself is outside the repository).  Policy `first` ends the mix
with its first input; policy `longest` with its longest input. -/
def amixOutputDuration (policy : String) (durations : List ℚ) : ℚ :=
  if policy = "first" then durations.headD 0
  else durations.foldr max 0

/-- Observable outcome of one `add_music_to_video` call:
its result, how many engine processes were launched, and the filter
graph it assembled (when it reached that point). -/
structure MixRun where
  result : Except MixError String
  engineInvocations : ℕ
  graph : Option FilterGraph
deriving Repr

/-- `add_music_to_video` (`app/pipeline.py` lines 22-191): the guard
clauses and the validation loop run first; only when they all pass is
the filter graph built and a single ffmpeg process launched
(`ffmpegSucceeds` abstracts that one subprocess call). -/
def add_music_to_video (fileExists : String → Bool) (ffmpegSucceeds : Bool)
    (video_filepath : String) (music_tracks : List (String × TrackTiming))
    (output_path : String) (video_volume music_volume : ℚ) : MixRun :=
  if video_filepath = "" ∨ fileExists video_filepath = false then
    { result := .error (.inputVideoNotFound video_filepath),
      engineInvocations := 0, graph := none }
  else if music_tracks = [] then
    { result := .error .noMusicTracks, engineInvocations := 0, graph := none }
  else if output_path = "" then
    { result := .error .noOutputPath, engineInvocations := 0, graph := none }
  else
    match validateTracks fileExists music_tracks 0 with
    | .error e => { result := .error e, engineInvocations := 0, graph := none }
    | .ok vts =>
      let g := buildFilterGraph video_volume music_volume vts
      { result := if ffmpegSucceeds then .ok output_path else .error .ffmpegFailed,
        engineInvocations := 1, graph := some g }

/-! ### Two-tier fast/fallback strategy (`app/pipeline.py`) -/

/-- What one ffmpeg invocation leaves behind: its exit status, whether
the target file exists afterwards and its size. -/
structure EngineAttempt where
  exitOk : Bool
  outFileExists : Bool
  outFileSize : ℕ
deriving DecidableEq, Repr

/-- Outcome of one unit of work under the two-tier strategy: whether it
succeeded, how many engine processes ran and whether the fallback tier
ran at all.  `success = false` means the typed error is raised. -/
structure UnitOutcome where
  success : Bool
  invocations : ℕ
  usedFallback : Bool
deriving DecidableEq, Repr

/-- One segment extraction from the loop of
`crop_and_stitch_video_segments` (`app/pipeline.py` lines 302-355):
the fast stream-copy tier succeeds when its process exits 0 and the
produced file exists with more than 1000 bytes; otherwise the fallback
re-encode runs and succeeds when its process exits 0 and the file
exists; a fallback failure raises the `RuntimeError`. -/
def segment_unit (fast fallback : EngineAttempt) : UnitOutcome :=
  let fastSuccess :=
    fast.exitOk && fast.outFileExists && decide (fast.outFileSize > 1000)
  if fastSuccess then { success := true, invocations := 1, usedFallback := false }
  else
    let fallbackSuccess := fallback.exitOk && fallback.outFileExists
    { success := fallbackSuccess, invocations := 2, usedFallback := true }

/-- One concatenation from `stitch_videos_together` (`app/pipeline.py`
lines 486-540): the same fast/fallback shape, with the fast tier
validated by existence and the 1000-byte threshold and the fallback
tier by existence alone. -/
def concat_unit (fast fallback : EngineAttempt) : UnitOutcome :=
  let fastSuccess :=
    fast.exitOk && fast.outFileExists && decide (fast.outFileSize > 1000)
  if fastSuccess then { success := true, invocations := 1, usedFallback := false }
  else
    let fallbackSuccess := fallback.exitOk && fallback.outFileExists
    { success := fallbackSuccess, invocations := 2, usedFallback := true }

/-! ### Concatenator: `stitch_videos_together` (`app/pipeline.py`) -/

/-- Path escaping for the concat manifest (`app/pipeline.py` lines
441-453): on Windows, backslashes become forward slashes and single
quotes are escaped; on Unix-like systems only the quote escaping is
applied. -/
def escape_concat_path (isWindows : Bool) (p : String) : String :=
  if isWindows then (p.replace "\\" "/").replace "'" "'\"'\"'"
  else p.replace "'" "'\"'\"'"

/-- The manifest written for the concat demuxer (`app/pipeline.py`
lines 437-453): one `file '<path>'` line per normalized input path, in
input order.  `abspath` stands for `os.path.abspath`. -/
def concat_manifest (abspath : String → String) (isWindows : Bool)
    (video_file_paths : List String) : List String :=
  (video_file_paths.map abspath).map
    (fun p => "file '" ++ escape_concat_path isWindows p ++ "'")

/-- Errors of `stitch_videos_together`: the two `ValueError`s, the
filesystem error escaping from `shutil.copy2`, and the `RuntimeError`
raised after both concatenation tiers fail. -/
inductive StitchError
  | noFiles
  | inputNotFound (fileNo : ℕ) (path : String)
  | copyFailed (path : String)
  | concatFailed
deriving DecidableEq, Repr

/-- Environment of one `stitch_videos_together` call. -/
structure StitchEnv where
  fileExists : String → Bool
  abspath : String → String
  fast : EngineAttempt
  fallback : EngineAttempt

/-- Observable outcome of one `stitch_videos_together` call. -/
structure StitchRun where
  result : Except StitchError String
  engineInvocations : ℕ
  manifestWritten : Bool
  manifestRemainsAtExit : Bool
  copiedSingle : Bool
deriving Repr

/-- The per-input validation loop (`app/pipeline.py` lines 425-434):
normalize each path with `os.path.abspath` and raise a `ValueError`
naming the first missing input. -/
def validate_stitch_inputs (fileExists : String → Bool)
    (abspath : String → String) :
    List String → ℕ → Except StitchError (List String)
  | [], _ => .ok []
  | p :: rest, i =>
    let abs_path := abspath p
    if fileExists abs_path = false then .error (.inputNotFound (i + 1) abs_path)
    else
      match validate_stitch_inputs fileExists abspath rest (i + 1) with
      | .error e => .error e
      | .ok ns => .ok (abs_path :: ns)

/-- `stitch_videos_together` (`app/pipeline.py` lines 398-565): an
empty list raises; a single-element list is a plain `shutil.copy2` to
`output_path` (returned as given, with no validation, manifest or
engine call); otherwise the inputs are validated, the manifest is
written and the two-tier concatenation runs, with the manifest
unlinked in the `finally` block on every path that wrote it. -/
def stitch_videos_together (env : StitchEnv) (video_file_paths : List String)
    (output_path : String) : StitchRun :=
  if video_file_paths = [] then
    { result := .error .noFiles, engineInvocations := 0,
      manifestWritten := false, manifestRemainsAtExit := false,
      copiedSingle := false }
  else if video_file_paths.length = 1 then
    let p := video_file_paths.headD ""
    if env.fileExists p then
      { result := .ok output_path, engineInvocations := 0,
        manifestWritten := false, manifestRemainsAtExit := false,
        copiedSingle := true }
    else
      { result := .error (.copyFailed p), engineInvocations := 0,
        manifestWritten := false, manifestRemainsAtExit := false,
        copiedSingle := false }
  else
    match validate_stitch_inputs env.fileExists env.abspath video_file_paths 0 with
    | .error e =>
      { result := .error e, engineInvocations := 0,
        manifestWritten := false, manifestRemainsAtExit := false,
        copiedSingle := false }
    | .ok _ =>
      let o := concat_unit env.fast env.fallback
      { result :=
          if o.success then .ok (env.abspath output_path)
          else .error .concatFailed,
        engineInvocations := o.invocations, manifestWritten := true,
        manifestRemainsAtExit := false, copiedSingle := false }

/-! ### Segment Extractor and cleanup: `crop_and_stitch_video_segments`
(`app/pipeline.py`) -/

/-- Errors of `crop_and_stitch_video_segments`: the validation
`ValueError`s and the `RuntimeError`s wrapping a failed segment or a
failed stitch. -/
inductive CropError
  | inputVideoNotFound (path : String)
  | noSegments
  | noOutputPath
  | negativeStart (segNo : ℕ)
  | endNotAfterStart (segNo : ℕ)
  | segmentFailed (segNo : ℕ)
  | stitchFailed
deriving DecidableEq, Repr

/-- The segment validation loop (`app/pipeline.py` lines 226-239). -/
def validate_crop_segments : List Segment → ℕ → Option CropError
  | [], _ => none
  | s :: rest, i =>
    if s.start < 0 then some (.negativeStart (i + 1))
    else if s.stop ≤ s.start then some (.endNotAfterStart (i + 1))
    else validate_crop_segments rest (i + 1)

/-- Filesystem effect of one ffmpeg attempt on its target segment file:
the exit status, and the size of the file it writes, when it writes
one. -/
structure SegmentAttemptIO where
  exitOk : Bool
  creates : Option ℕ
deriving DecidableEq, Repr

/-- The two tiers available for one segment. -/
structure SegmentEngine where
  fast : SegmentAttemptIO
  fallback : SegmentAttemptIO
deriving DecidableEq, Repr

/-- The job's temporary directory contents (segment index and byte
size per file) together with the `temp_files` list of recorded
segment paths. -/
structure TempState where
  present : List (ℕ × ℕ)
  recorded : List ℕ
deriving DecidableEq, Repr

/-- Writing (or overwriting) segment file `i` with `sz` bytes. -/
def writeFile (ps : List (ℕ × ℕ)) (i sz : ℕ) : List (ℕ × ℕ) :=
  (i, sz) :: ps.filter (fun q => !(q.1 == i))

/-- `os.path.exists` for segment file `i`. -/
def hasFile (ps : List (ℕ × ℕ)) (i : ℕ) : Bool := ps.any (fun q => q.1 == i)

/-- `os.path.getsize` for segment file `i` (0 when absent). -/
def fileSize (ps : List (ℕ × ℕ)) (i : ℕ) : ℕ :=
  ((ps.find? (fun q => q.1 == i)).map (fun q => q.2)).getD 0

/-- Applies the file written by an attempt, if any. -/
def applyAttempt (ps : List (ℕ × ℕ)) (i : ℕ) : Option ℕ → List (ℕ × ℕ)
  | some sz => writeFile ps i sz
  | none => ps

/-- One iteration of the extraction loop (`app/pipeline.py` lines
263-355) on segment `i`: the fast attempt runs first and the file is
recorded in `temp_files` only when a tier succeeds; note that both
tiers write the same `temp_segment_path`, so the fallback's existence
check can also be satisfied by a file the fast tier left behind. -/
def extract_step (eng : SegmentEngine) (i : ℕ) (st : TempState) :
    TempState × Bool :=
  let afterFast := applyAttempt st.present i eng.fast.creates
  let fastSuccess :=
    eng.fast.exitOk && hasFile afterFast i && decide (fileSize afterFast i > 1000)
  if fastSuccess then
    ({ present := afterFast, recorded := st.recorded ++ [i] }, true)
  else
    let afterFallback := applyAttempt afterFast i eng.fallback.creates
    if eng.fallback.exitOk && hasFile afterFallback i then
      ({ present := afterFallback, recorded := st.recorded ++ [i] }, true)
    else
      ({ present := afterFallback, recorded := st.recorded }, false)

/-- The extraction loop over the segment indices; it stops at the first
failing segment (whose `RuntimeError` aborts the job). -/
def extract_loop (eng : ℕ → SegmentEngine) :
    List ℕ → TempState → TempState × Option ℕ
  | [], st => (st, none)
  | i :: rest, st =>
    let out := extract_step (eng i) i st
    if out.2 then extract_loop eng rest out.1 else (out.1, some i)

/-- Environment of one `crop_and_stitch_video_segments` call:
the input-video existence check, the engine behaviour for each segment
index, and whether the inner `stitch_videos_together` call succeeds
(writing the final output). -/
structure CropEnv where
  fileExists : String → Bool
  engine : ℕ → SegmentEngine
  stitchOk : Bool

/-- Observable outcome of one `crop_and_stitch_video_segments` call,
including what is left on disk when the `finally` blocks have run. -/
structure CropRun where
  result : Except CropError String
  tempDirCreated : Bool
  recorded : List ℕ
  leftover : List (ℕ × ℕ)
  tempDirRemainsAtExit : Bool
  manifestRemainsAtExit : Bool
  outputPresent : Bool
deriving Repr

/-- `crop_and_stitch_video_segments` (`app/pipeline.py` lines
193-396): validation first (before the temporary directory exists),
then the extraction loop, then the stitch; the `finally` block unlinks
every path recorded in `temp_files` and calls `os.rmdir` on the
temporary directory, which fails — and the failure is swallowed — when
an unrecorded file is still inside; the concat manifest is unlinked by
the `finally` block of `stitch_videos_together` itself. -/
def crop_and_stitch_video_segments (env : CropEnv) (video_filepath : String)
    (segments : List Segment) (output_path : String) : CropRun :=
  if video_filepath = "" ∨ env.fileExists video_filepath = false then
    { result := .error (.inputVideoNotFound video_filepath),
      tempDirCreated := false, recorded := [], leftover := [],
      tempDirRemainsAtExit := false, manifestRemainsAtExit := false,
      outputPresent := false }
  else if segments = [] then
    { result := .error .noSegments, tempDirCreated := false, recorded := [],
      leftover := [], tempDirRemainsAtExit := false,
      manifestRemainsAtExit := false, outputPresent := false }
  else if output_path = "" then
    { result := .error .noOutputPath, tempDirCreated := false, recorded := [],
      leftover := [], tempDirRemainsAtExit := false,
      manifestRemainsAtExit := false, outputPresent := false }
  else
    match validate_crop_segments segments 0 with
    | some e =>
      { result := .error e, tempDirCreated := false, recorded := [],
        leftover := [], tempDirRemainsAtExit := false,
        manifestRemainsAtExit := false, outputPresent := false }
    | none =>
      let out := extract_loop env.engine (List.range segments.length) ⟨[], []⟩
      let st := out.1
      let afterCleanup := st.present.filter (fun q => !(st.recorded.contains q.1))
      let dirRemains := !afterCleanup.isEmpty
      match out.2 with
      | some i =>
        { result := .error (.segmentFailed (i + 1)), tempDirCreated := true,
          recorded := st.recorded, leftover := afterCleanup,
          tempDirRemainsAtExit := dirRemains, manifestRemainsAtExit := false,
          outputPresent := false }
      | none =>
        if env.stitchOk then
          { result := .ok output_path, tempDirCreated := true,
            recorded := st.recorded, leftover := afterCleanup,
            tempDirRemainsAtExit := dirRemains, manifestRemainsAtExit := false,
            outputPresent := true }
        else
          { result := .error .stitchFailed, tempDirCreated := true,
            recorded := st.recorded, leftover := afterCleanup,
            tempDirRemainsAtExit := dirRemains, manifestRemainsAtExit := false,
            outputPresent := false }

/-! ## Helper lemmas -/

theorem segLe_trans : ∀ (a b c : Segment), segLe a b → segLe b c → segLe a c := by
  intro a b c hab hbc
  simp only [segLe, decide_eq_true_eq] at *
  exact le_trans hab hbc

theorem segLe_total : ∀ (a b : Segment), segLe a b || segLe b a := by
  intro a b
  simp only [segLe, Bool.or_eq_true, decide_eq_true_eq]
  exact le_total a.start b.start

theorem filterMap_fix {α : Type} {f : α → Option α} :
    ∀ {l : List α}, (∀ a ∈ l, f a = some a) → l.filterMap f = l := by
  intro l
  induction l with
  | nil => intro _; rfl
  | cons a t ih =>
    intro h
    rw [List.filterMap_cons, h a (List.mem_cons_self a t),
      ih (fun x hx => h x (List.mem_cons_of_mem a hx))]

theorem clamp_fix {d x : ℚ} (hd : 0 ≤ d) :
    max 0 (min (max 0 (min x d)) d) = max 0 (min x d) := by
  have h1 : (0 : ℚ) ≤ max 0 (min x d) := le_max_left _ _
  have h2 : max 0 (min x d) ≤ d := max_le hd (min_le_right x d)
  rw [min_eq_left h2, max_eq_right h1]

theorem sanitizeKeep_fix {d : ℚ} {raw e : Segment}
    (h : sanitizeKeep d raw = some e) : sanitizeKeep d e = some e := by
  unfold sanitizeKeep at h
  by_cases hc : max 0 (min raw.stop d) > max 0 (min raw.start d)
  · simp only [hc, if_pos, Option.some_inj] at h
    subst h
    have hstop : (0 : ℚ) < max 0 (min raw.stop d) := lt_of_le_of_lt (le_max_left _ _) hc
    have hd : (0 : ℚ) ≤ d := by
      by_contra hneg
      push_neg at hneg
      have hmin : min raw.stop d ≤ d := min_le_right _ _
      have hmax : max 0 (min raw.stop d) = 0 := by
        apply max_eq_left
        linarith
      linarith
    unfold sanitizeKeep
    simp only [clamp_fix hd]
    rw [if_pos hc]
  · rw [if_neg hc] at h
    exact absurd h (by simp)

/-! ## Claims about the Segment Validator -/

/-- Claim C2: for every list of raw pairs and every duration, the
Validator returns exactly the pairs whose clamped values satisfy
`end > start`, carrying their clamped values, sorted ascending by
`start`; `{-5, 10}` against a 20s source becomes `{0, 10}` and
`{25, 30}` against a 20s source is dropped. -/
theorem sanitize_segments_clamps_filters_sorts
    (segments : List Segment) (d : ℚ) :
    (sanitize_segments segments d).Perm
      (segments.filterMap (sanitizeKeep d)) ∧
    (sanitize_segments segments d).Pairwise (fun a b => a.start ≤ b.start) ∧
    sanitize_segments [⟨-5, 10⟩] 20 = [⟨0, 10⟩] ∧
    sanitize_segments [⟨25, 30⟩] 20 = [] := by
  refine ⟨List.mergeSort_perm _ _, ?_, ?_, ?_⟩
  · have h := List.sorted_mergeSort segLe_trans segLe_total
      (segments.filterMap (sanitizeKeep d))
    exact h.imp (fun hab => by simpa [segLe] using hab)
  · simp [sanitize_segments, sanitizeKeep]
    norm_num
  · norm_num [sanitize_segments, sanitizeKeep]

/-- Claim C8: the Segment Validator is idempotent — sanitizing an
already-sanitized list returns it unchanged, for every segment list
and every duration. -/
theorem sanitize_segments_idempotent (segments : List Segment) (d : ℚ) :
    sanitize_segments (sanitize_segments segments d) d =
      sanitize_segments segments d := by
  unfold sanitize_segments
  set L := segments.filterMap (sanitizeKeep d) with hL
  have hfix : ∀ e ∈ L.mergeSort segLe, sanitizeKeep d e = some e := by
    intro e he
    rw [List.mem_mergeSort, hL, List.mem_filterMap] at he
    obtain ⟨raw, _, hsome⟩ := he
    exact sanitizeKeep_fix hsome
  rw [filterMap_fix hfix,
    List.mergeSort_of_sorted (List.sorted_mergeSort segLe_trans segLe_total L)]

/-! ## Claims about the Audio Overlay Mixer -/

/-- Claim C1 (counterexample): for the spec's own example — a 10-second
track placed at 20s, mixed by `add_music_to_video` — the N-input mix
node of the generated filter graph carries output-duration policy
`first`, not `longest`. -/
theorem amix_policy_is_not_longest :
    ((add_music_to_video (fun _ => true) true "v.mp4"
        [("sad.mp3", { start := some 20, stop := some 30, volume := none })]
        "out.mp4" 1 (1/4)).graph.map (fun g => g.mix.durationPolicy)) =
      some "first" ∧
    ¬ ((add_music_to_video (fun _ => true) true "v.mp4"
        [("sad.mp3", { start := some 20, stop := some 30, volume := none })]
        "out.mp4" 1 (1/4)).graph.map (fun g => g.mix.durationPolicy)) =
      some "longest" := by
  constructor
  · rfl
  · intro h
    have h1 : ((add_music_to_video (fun _ => true) true "v.mp4"
        [("sad.mp3", { start := some 20, stop := some 30, volume := none })]
        "out.mp4" 1 (1/4)).graph.map (fun g => g.mix.durationPolicy)) =
        some "first" := rfl
    rw [h1] at h
    have h2 : "first" = "longest" := Option.some_inj.mp h
    exact absurd h2 (by decide)

/-- Claim C1 (amended): for every call, the mix node built by
`add_music_to_video` uses the `first` output-duration policy with the
gained original audio as the mixer's first input, so — by the engine's
`amix` semantics — the output duration equals the original video's
audio duration, preserving the video's full duration even when no
music track covers the tail. -/
theorem amix_policy_first_preserves_video_duration
    (video_volume music_volume : ℚ) (vts : List ValidatedTrack)
    (videoAudioDuration : ℚ) (trackDurations : List ℚ) :
    (buildFilterGraph video_volume music_volume vts).mix.durationPolicy =
      "first" ∧
    (buildFilterGraph video_volume music_volume vts).mix.inputs.head? =
      some "original_audio" ∧
    amixOutputDuration "first" (videoAudioDuration :: trackDurations) =
      videoAudioDuration := by
  refine ⟨rfl, rfl, ?_⟩
  simp [amixOutputDuration]

/-- Claim C3 (counterexample): `add_music_to_video` ignores any
per-track volume — for a track carrying volume 1/2 under master music
volume 1/4 the chain's gain is 1/4, not 1/2 × 1/4 — and for
`start = 1/2000` s the inserted delay is `int(start*1000) = 0` ms on
both channels, not exactly `start` seconds. -/
theorem track_chain_gain_and_delay_counterexample :
    validateTracks (fun _ => true)
        [("m.mp3", { start := some (1/2000), stop := some 10,
                     volume := some (1/2) })] 0 =
      .ok [{ path := "m.mp3", start := 1/2000, stop := 10,
             duration := 10 - 1/2000 }] ∧
    (buildTrackChain (1/4) 0
        { path := "m.mp3", start := 1/2000, stop := 10,
          duration := 10 - 1/2000 }).ops =
      [.volume (1/4), .adelay 0 0, .atrim 0 10] ∧
    (1/4 : ℚ) ≠ (1/2) * (1/4) ∧
    (1/2000 : ℚ) ≠ 0 := by
  refine ⟨?_, ?_, by norm_num, by norm_num⟩
  · norm_num [validateTracks]
  · have hpos : (0 : ℚ) < 1/2000 := by norm_num
    have hfl : ⌊(1/2000 : ℚ) * 1000⌋ = 0 := by
      rw [show (1/2000 : ℚ) * 1000 = 1/2 by norm_num]
      norm_num
    have hend : (10 - 1/2000 : ℚ) + 1/2000 = 10 := by norm_num
    simp only [buildTrackChain, if_pos hpos, hfl, hend]

/-- Claim C3 (amended): for every validated track, the per-track chain
applies, in this order, a gain equal to the master `music_volume`
alone (tracks carry no individual volume), then — when `start > 0` — a
delay of `int(start · 1000)` milliseconds on both channels (exactly
`start` seconds whenever `start` is a whole number of milliseconds),
then a trim to `[0, end]`, so the contribution never extends past the
declared `[start, end]` window and spans `end − start` seconds. -/
theorem track_chain_gain_delay_trim (music_volume : ℚ) (i : ℕ)
    (t : ValidatedTrack) (hdur : t.duration = t.stop - t.start)
    (hstart : 0 ≤ t.start) :
    (buildTrackChain music_volume i t).ops =
      if 0 < t.start then
        [.volume music_volume, .adelay ⌊t.start * 1000⌋ ⌊t.start * 1000⌋,
          .atrim 0 t.stop]
      else [.volume music_volume, .atrim 0 t.stop] := by
  dsimp only [buildTrackChain]
  by_cases hpos : 0 < t.start
  · rw [if_pos hpos, if_pos hpos]
    have : t.duration + t.start = t.stop := by rw [hdur]; ring
    rw [this]
  · rw [if_neg hpos, if_neg hpos]
    have hz : t.start = 0 := le_antisymm (not_lt.mp hpos) hstart
    have : t.duration = t.stop := by rw [hdur, hz, sub_zero]
    rw [this]

/-- Claim C3 (witness): the amended chain shape evaluated on a concrete
validated track placed at 2s-5s under master music volume 1/4. -/
theorem track_chain_gain_delay_trim_witness :
    (buildTrackChain (1/4) 0
        { path := "m.mp3", start := 2, stop := 5, duration := 3 }).ops =
      [.volume (1/4), .adelay 2000 2000, .atrim 0 5] := by
  have h := track_chain_gain_delay_trim (1/4) 0
    { path := "m.mp3", start := 2, stop := 5, duration := 3 }
    (by norm_num) (by norm_num)
  rw [h, if_pos (by norm_num : (0 : ℚ) < 2)]
  norm_num

/-- Claim C6 (counterexample): a call with both gains negative passes
validation and launches the engine — `add_music_to_video` never checks
that the gains are non-negative. -/
theorem negative_gain_passes_validation :
    (add_music_to_video (fun _ => true) true "v.mp4"
        [("m.mp3", { start := some 0, stop := some 10, volume := none })]
        "out.mp4" (-1) (-2)).result = .ok "out.mp4" ∧
    (add_music_to_video (fun _ => true) true "v.mp4"
        [("m.mp3", { start := some 0, stop := some 10, volume := none })]
        "out.mp4" (-1) (-2)).engineInvocations = 1 := by
  exact ⟨rfl, rfl⟩

theorem validateTracks_sound (fileExists : String → Bool) :
    ∀ (l : List (String × TrackTiming)) (i : ℕ) (vts : List ValidatedTrack),
      validateTracks fileExists l i = .ok vts →
      ∀ t ∈ vts, fileExists t.path = true ∧ 0 ≤ t.start ∧ t.start < t.stop := by
  intro l
  induction l with
  | nil =>
    intro i vts h t ht
    simp only [validateTracks] at h
    cases h
    simp at ht
  | cons p rest ih =>
    intro i vts h t ht
    obtain ⟨audio_path, ts, te, tv⟩ := p
    rw [validateTracks] at h
    by_cases hex : fileExists audio_path = false
    · rw [if_pos hex] at h
      simp at h
    · rw [if_neg hex] at h
      rcases ts with _ | s
      · simp at h
      · rcases te with _ | e
        · simp at h
        · dsimp only at h
          by_cases hneg : s < 0
          · rw [if_pos hneg] at h
            simp at h
          · rw [if_neg hneg] at h
            by_cases hord : e ≤ s
            · rw [if_pos hord] at h
              simp at h
            · rw [if_neg hord] at h
              cases hrec : validateTracks fileExists rest (i + 1) with
              | error err =>
                rw [hrec] at h
                simp at h
              | ok vs =>
                rw [hrec] at h
                cases h
                rcases List.mem_cons.mp ht with hhead | htail
                · subst hhead
                  exact ⟨by simpa using hex, not_lt.mp hneg, not_le.mp hord⟩
                · exact ih (i + 1) vs hrec t htail

/-- Claim C6 (amended): before any subprocess is spawned,
`add_music_to_video` validates that the input video and every track's
audio file exist, both timestamp keys are present, and every track has
`start ≥ 0` and `end > start`, raising a `ValueError` with a precise
message on any failure — with no engine process launched on that path;
the two gains, however, are not validated. -/
theorem add_music_validation_guarantees (fileExists : String → Bool)
    (ffmpegSucceeds : Bool) (video_filepath : String)
    (music_tracks : List (String × TrackTiming)) (output_path : String)
    (video_volume music_volume : ℚ) :
    (∀ e, e ≠ MixError.ffmpegFailed →
      (add_music_to_video fileExists ffmpegSucceeds video_filepath
          music_tracks output_path video_volume music_volume).result =
        .error e →
      (add_music_to_video fileExists ffmpegSucceeds video_filepath
          music_tracks output_path video_volume music_volume).engineInvocations
        = 0) ∧
    (∀ vts, validateTracks fileExists music_tracks 0 = .ok vts →
      ∀ t ∈ vts, fileExists t.path = true ∧ 0 ≤ t.start ∧ t.start < t.stop) := by
  constructor
  · intro e hne hres
    unfold add_music_to_video at hres ⊢
    by_cases h1 : video_filepath = "" ∨ fileExists video_filepath = false
    · rw [if_pos h1] at hres ⊢
    · rw [if_neg h1] at hres ⊢
      by_cases h2 : music_tracks = []
      · rw [if_pos h2] at hres ⊢
      · rw [if_neg h2] at hres ⊢
        by_cases h3 : output_path = ""
        · rw [if_pos h3] at hres ⊢
        · rw [if_neg h3] at hres ⊢
          cases hv : validateTracks fileExists music_tracks 0 with
          | error err => rfl
          | ok vts =>
            rw [hv] at hres
            dsimp only at hres
            cases ffmpegSucceeds with
            | true => simp at hres
            | false =>
              simp only [Bool.false_eq_true, if_false] at hres
              exact absurd (Except.error.inj hres).symm hne
  · exact fun vts h => validateTracks_sound fileExists music_tracks 0 vts h

/-- Claim C6 (witness): on a call whose input video is missing, the
validation error path launches no engine process. -/
theorem add_music_validation_guarantees_witness :
    (add_music_to_video (fun _ => false) true "v.mp4"
        [("m.mp3", { start := some 0, stop := some 10, volume := none })]
        "out.mp4" 1 (1/4)).engineInvocations = 0 :=
  (add_music_validation_guarantees (fun _ => false) true "v.mp4"
      [("m.mp3", { start := some 0, stop := some 10, volume := none })]
      "out.mp4" 1 (1/4)).1
    (.inputVideoNotFound "v.mp4") (by simp) rfl

/-! ## Claims about the two-tier strategy and the Concatenator -/

/-- Claim C4: for each unit of work (segment extraction or
concatenation) the engine is invoked at most twice; the fallback runs
if and only if the fast stream-copy attempt failed (non-zero exit, or
output missing or at most the 1000-byte threshold); the typed error is
raised if and only if the fallback also fails; and a fast-tier failure
followed by a fallback success never fails the job. -/
theorem two_tier_unit_policy (fast fallback : EngineAttempt) :
    ((segment_unit fast fallback).invocations ≤ 2 ∧
      (concat_unit fast fallback).invocations ≤ 2) ∧
    ((segment_unit fast fallback).usedFallback = true ↔
      ¬(fast.exitOk = true ∧ fast.outFileExists = true ∧
        1000 < fast.outFileSize)) ∧
    ((concat_unit fast fallback).usedFallback = true ↔
      ¬(fast.exitOk = true ∧ fast.outFileExists = true ∧
        1000 < fast.outFileSize)) ∧
    ((segment_unit fast fallback).success = false ↔
      (¬(fast.exitOk = true ∧ fast.outFileExists = true ∧
          1000 < fast.outFileSize) ∧
        ¬(fallback.exitOk = true ∧ fallback.outFileExists = true))) ∧
    ((concat_unit fast fallback).success = false ↔
      (¬(fast.exitOk = true ∧ fast.outFileExists = true ∧
          1000 < fast.outFileSize) ∧
        ¬(fallback.exitOk = true ∧ fallback.outFileExists = true))) ∧
    (¬(fast.exitOk = true ∧ fast.outFileExists = true ∧
        1000 < fast.outFileSize) →
      fallback.exitOk = true → fallback.outFileExists = true →
      (segment_unit fast fallback).success = true ∧
      (concat_unit fast fallback).success = true) := by
  obtain ⟨fe, fx, fsz⟩ := fast
  obtain ⟨be, bx, bsz⟩ := fallback
  by_cases h : 1000 < fsz <;>
    cases fe <;> cases fx <;> cases be <;> cases bx <;>
      simp [segment_unit, concat_unit, h]

/-- Claim C4 (witness): a unit whose fast tier exits non-zero but whose
fallback succeeds completes without error, for both the extractor and
the concatenator. -/
theorem two_tier_unit_policy_witness :
    (segment_unit ⟨false, false, 0⟩ ⟨true, true, 5000⟩).success = true ∧
    (concat_unit ⟨false, false, 0⟩ ⟨true, true, 5000⟩).success = true :=
  (two_tier_unit_policy ⟨false, false, 0⟩ ⟨true, true, 5000⟩).2.2.2.2.2
    (by simp) rfl rfl

/-- Claim C5: the concat manifest contains exactly one `file '<path>'`
line per input path, in input order with duplicates preserved, each
written path being the normalized absolute path with backslashes
turned into forward slashes on Windows and single quotes escaped. -/
theorem concat_manifest_one_line_per_input (abspath : String → String)
    (isWindows : Bool) (paths : List String) :
    (concat_manifest abspath isWindows paths).length = paths.length ∧
    (∀ i : ℕ, (concat_manifest abspath isWindows paths)[i]? =
      (paths[i]?).map
        (fun p => "file '" ++ escape_concat_path isWindows (abspath p) ++ "'")) ∧
    (∀ p, escape_concat_path true p =
      (p.replace "\\" "/").replace "'" "'\"'\"'") ∧
    (∀ p, escape_concat_path false p = p.replace "'" "'\"'\"'") := by
  refine ⟨by simp [concat_manifest], ?_, fun p => rfl, fun p => rfl⟩
  intro i
  simp [concat_manifest, Option.map_map]
  rfl

/-- Claim C9: a single-element input list makes `stitch_videos_together`
a pure file copy — it copies the one input to the output path and
returns that path, with no manifest written and no engine invocation. -/
theorem stitch_single_is_copy (env : StitchEnv) (p output_path : String)
    (h : env.fileExists p = true) :
    stitch_videos_together env [p] output_path =
      { result := .ok output_path, engineInvocations := 0,
        manifestWritten := false, manifestRemainsAtExit := false,
        copiedSingle := true } := by
  unfold stitch_videos_together
  rw [if_neg (List.cons_ne_nil p []), if_pos (List.length_singleton p)]
  dsimp only [List.headD]
  rw [if_pos h]

/-- Claim C9 (witness): the copy path evaluated on a concrete call. -/
theorem stitch_single_is_copy_witness :
    stitch_videos_together
        { fileExists := fun _ => true, abspath := id,
          fast := ⟨true, true, 5000⟩, fallback := ⟨true, true, 5000⟩ }
        ["clip.mp4"] "final.mp4" =
      { result := .ok "final.mp4", engineInvocations := 0,
        manifestWritten := false, manifestRemainsAtExit := false,
        copiedSingle := true } :=
  stitch_single_is_copy _ "clip.mp4" "final.mp4" rfl

/-- Claim C10: the per-file existence validation of
`stitch_videos_together` (a `ValueError` naming the missing input) runs
only for lists of length at least 2 — a single-element call with a
missing path fails with the copy operation's filesystem error instead,
while a two-element call with the same missing path raises the
validation error before any engine run. -/
theorem stitch_single_skips_existence_validation (env : StitchEnv)
    (p q output_path : String) (h : env.fileExists p = false) :
    (stitch_videos_together env [p] output_path).result =
      .error (.copyFailed p) ∧
    (∀ i pp, (stitch_videos_together env [p] output_path).result ≠
      .error (.inputNotFound i pp)) ∧
    (env.fileExists (env.abspath p) = false →
      (stitch_videos_together env [p, q] output_path).result =
        .error (.inputNotFound 1 (env.abspath p)) ∧
      (stitch_videos_together env [p, q] output_path).engineInvocations = 0) := by
  have h1 : (stitch_videos_together env [p] output_path).result =
      .error (.copyFailed p) := by
    unfold stitch_videos_together
    rw [if_neg (List.cons_ne_nil p []), if_pos (List.length_singleton p)]
    dsimp only [List.headD]
    rw [if_neg (by simp [h])]
  refine ⟨h1, ?_, ?_⟩
  · intro i pp hcontra
    rw [h1] at hcontra
    simp at hcontra
  · intro habs
    have h2 : validate_stitch_inputs env.fileExists env.abspath [p, q] 0 =
        .error (.inputNotFound 1 (env.abspath p)) := by
      unfold validate_stitch_inputs
      rw [if_pos habs]
    constructor
    · unfold stitch_videos_together
      rw [if_neg (List.cons_ne_nil p [q]), if_neg (by simp), h2]
    · unfold stitch_videos_together
      rw [if_neg (List.cons_ne_nil p [q]), if_neg (by simp), h2]

/-- Claim C10 (witness): a single-element call on a missing path fails
with the copy error, not the validation error. -/
theorem stitch_single_skips_existence_validation_witness :
    (stitch_videos_together
        { fileExists := fun _ => false, abspath := id,
          fast := ⟨true, true, 5000⟩, fallback := ⟨true, true, 5000⟩ }
        ["ghost.mp4"] "final.mp4").result = .error (.copyFailed "ghost.mp4") :=
  (stitch_single_skips_existence_validation _ "ghost.mp4" "other.mp4"
    "final.mp4" rfl).1

/-! ## Claims about resource cleanup -/

theorem applyAttempt_mem {ps : List (ℕ × ℕ)} {i : ℕ} {c : Option ℕ}
    {q : ℕ × ℕ} (h : q ∈ applyAttempt ps i c) : q.1 = i ∨ q ∈ ps := by
  cases c with
  | none => exact Or.inr h
  | some sz =>
    simp only [applyAttempt, writeFile, List.mem_cons] at h
    rcases h with h | h
    · left; rw [h]
    · right; exact (List.mem_filter.mp h).1

theorem extract_step_pres (eng : SegmentEngine) (i : ℕ) (st : TempState)
    (hinv : ∀ q ∈ st.present, q.1 ∈ st.recorded)
    (hsucc : (extract_step eng i st).2 = true) :
    ∀ q ∈ (extract_step eng i st).1.present,
      q.1 ∈ (extract_step eng i st).1.recorded := by
  intro q hq
  unfold extract_step at hq ⊢
  dsimp only at hq ⊢
  by_cases h1 : (eng.fast.exitOk &&
      hasFile (applyAttempt st.present i eng.fast.creates) i &&
      decide (fileSize (applyAttempt st.present i eng.fast.creates) i > 1000))
      = true
  · rw [if_pos h1] at hq ⊢
    dsimp only at hq ⊢
    rcases applyAttempt_mem hq with h | h
    · exact List.mem_append.mpr (Or.inr (by simp [h]))
    · exact List.mem_append.mpr (Or.inl (hinv q h))
  · rw [if_neg h1] at hq ⊢
    by_cases h2 : (eng.fallback.exitOk &&
        hasFile (applyAttempt (applyAttempt st.present i eng.fast.creates) i
          eng.fallback.creates) i) = true
    · rw [if_pos h2] at hq ⊢
      dsimp only at hq ⊢
      rcases applyAttempt_mem hq with h | h
      · exact List.mem_append.mpr (Or.inr (by simp [h]))
      · rcases applyAttempt_mem h with h3 | h3
        · exact List.mem_append.mpr (Or.inr (by simp [h3]))
        · exact List.mem_append.mpr (Or.inl (hinv q h3))
    · exfalso
      unfold extract_step at hsucc
      dsimp only at hsucc
      rw [if_neg h1, if_neg h2] at hsucc
      simp at hsucc

theorem extract_loop_pres (eng : ℕ → SegmentEngine) :
    ∀ (idxs : List ℕ) (st : TempState),
      (∀ q ∈ st.present, q.1 ∈ st.recorded) →
      (extract_loop eng idxs st).2 = none →
      ∀ q ∈ (extract_loop eng idxs st).1.present,
        q.1 ∈ (extract_loop eng idxs st).1.recorded := by
  intro idxs
  induction idxs with
  | nil => intro st hinv _ q hq; exact hinv q hq
  | cons i rest ih =>
    intro st hinv hnone
    unfold extract_loop at hnone ⊢
    dsimp only at hnone ⊢
    by_cases hstep : (extract_step (eng i) i st).2 = true
    · rw [if_pos hstep] at hnone ⊢
      exact ih _ (extract_step_pres (eng i) i st hinv hstep) hnone
    · rw [if_neg hstep] at hnone
      simp at hnone

theorem mem_cleanup_filter {recorded : List ℕ} {present : List (ℕ × ℕ)} :
    ∀ q ∈ present.filter (fun q => !(recorded.contains q.1)),
      q.1 ∉ recorded := by
  intro q hq
  have h := (List.mem_filter.mp hq).2
  simpa using h

/-- Claim C7 (counterexample): when the fast tier writes an invalid
500-byte segment file (exit 0) and the fallback tier fails without
writing anything, the job raises, the partial file was never recorded
in `temp_files`, and the temporary directory survives the `finally`
cleanup — so not every exit path deletes the temporary directory. -/
theorem cleanup_leaves_tempdir_counterexample :
    (crop_and_stitch_video_segments
        { fileExists := fun _ => true,
          engine := fun _ =>
            { fast := { exitOk := true, creates := some 500 },
              fallback := { exitOk := false, creates := none } },
          stitchOk := true }
        "in.mp4" [{ start := 0, stop := 10 }] "out.mp4").result =
      .error (.segmentFailed 1) ∧
    (crop_and_stitch_video_segments
        { fileExists := fun _ => true,
          engine := fun _ =>
            { fast := { exitOk := true, creates := some 500 },
              fallback := { exitOk := false, creates := none } },
          stitchOk := true }
        "in.mp4" [{ start := 0, stop := 10 }] "out.mp4").leftover =
      [(0, 500)] ∧
    (crop_and_stitch_video_segments
        { fileExists := fun _ => true,
          engine := fun _ =>
            { fast := { exitOk := true, creates := some 500 },
              fallback := { exitOk := false, creates := none } },
          stitchOk := true }
        "in.mp4" [{ start := 0, stop := 10 }]
        "out.mp4").tempDirRemainsAtExit = true := by
  refine ⟨rfl, rfl, rfl⟩

/-- Claim C7 (amended): on every exit path of the crop-and-stitch
pipeline, every temporary segment file recorded in `temp_files` and
the concat manifest are deleted and the final output (on success) is
kept, and the temporary directory is removed whenever it is empty
after those deletions — in particular on every successful run; a
failing segment, however, can leave an unrecorded partial file from a
failed attempt behind, in which case `os.rmdir` fails, the failure is
swallowed, and the directory (with that file) survives. -/
theorem cleanup_policy (env : CropEnv) (video_filepath : String)
    (segments : List Segment) (output_path : String) :
    (∀ q ∈ (crop_and_stitch_video_segments env video_filepath segments
        output_path).leftover,
      q.1 ∉ (crop_and_stitch_video_segments env video_filepath segments
        output_path).recorded) ∧
    (crop_and_stitch_video_segments env video_filepath segments
        output_path).manifestRemainsAtExit = false ∧
    ((crop_and_stitch_video_segments env video_filepath segments
        output_path).leftover = [] →
      (crop_and_stitch_video_segments env video_filepath segments
        output_path).tempDirRemainsAtExit = false) ∧
    (∀ out, (crop_and_stitch_video_segments env video_filepath segments
        output_path).result = .ok out →
      (crop_and_stitch_video_segments env video_filepath segments
          output_path).leftover = [] ∧
      (crop_and_stitch_video_segments env video_filepath segments
          output_path).tempDirRemainsAtExit = false ∧
      (crop_and_stitch_video_segments env video_filepath segments
          output_path).outputPresent = true) := by
  unfold crop_and_stitch_video_segments
  by_cases h1 : video_filepath = "" ∨ env.fileExists video_filepath = false
  · rw [if_pos h1]
    exact ⟨by simp, rfl, fun _ => rfl, fun out h => by simp at h⟩
  · rw [if_neg h1]
    by_cases h2 : segments = []
    · rw [if_pos h2]
      exact ⟨by simp, rfl, fun _ => rfl, fun out h => by simp at h⟩
    · rw [if_neg h2]
      by_cases h3 : output_path = ""
      · rw [if_pos h3]
        exact ⟨by simp, rfl, fun _ => rfl, fun out h => by simp at h⟩
      · rw [if_neg h3]
        cases hv : validate_crop_segments segments 0 with
        | some e =>
          exact ⟨by simp, rfl, fun _ => rfl, fun out h => by simp at h⟩
        | none =>
          dsimp only
          cases hfail : (extract_loop env.engine (List.range segments.length)
              ⟨[], []⟩).2 with
          | some i =>
            dsimp only
            exact ⟨mem_cleanup_filter, rfl, fun hemp => by
              rw [hemp]
              rfl, fun out h => by simp at h⟩
          | none =>
            dsimp only
            have hrec : ∀ q ∈ (extract_loop env.engine
                (List.range segments.length) ⟨[], []⟩).1.present,
                q.1 ∈ (extract_loop env.engine
                  (List.range segments.length) ⟨[], []⟩).1.recorded :=
              extract_loop_pres env.engine (List.range segments.length)
                ⟨[], []⟩ (by simp) hfail
            have hclean : ((extract_loop env.engine
                (List.range segments.length) ⟨[], []⟩).1.present.filter
                  (fun q => !((extract_loop env.engine
                    (List.range segments.length)
                      ⟨[], []⟩).1.recorded.contains q.1))) = [] := by
              rw [List.filter_eq_nil_iff]
              intro q hq
              simpa using hrec q hq
            by_cases hst : env.stitchOk = true
            · rw [if_pos hst]
              dsimp only
              refine ⟨mem_cleanup_filter, rfl, fun hemp => by
                rw [hemp]
                rfl, fun out h => ?_⟩
              refine ⟨hclean, ?_, rfl⟩
              rw [hclean]
              rfl
            · rw [if_neg hst]
              dsimp only
              exact ⟨mem_cleanup_filter, rfl, fun hemp => by
                rw [hemp]
                rfl, fun out h => by simp at h⟩

/-- Claim C7 (witness): a run in which every segment extraction and the
stitch succeed ends with an empty temporary directory (removed), no
manifest, and the final output present. -/
theorem cleanup_policy_witness :
    (crop_and_stitch_video_segments
        { fileExists := fun _ => true,
          engine := fun _ =>
            { fast := { exitOk := true, creates := some 5000 },
              fallback := { exitOk := true, creates := some 5000 } },
          stitchOk := true }
        "in.mp4" [{ start := 0, stop := 10 }] "out.mp4").leftover = [] ∧
    (crop_and_stitch_video_segments
        { fileExists := fun _ => true,
          engine := fun _ =>
            { fast := { exitOk := true, creates := some 5000 },
              fallback := { exitOk := true, creates := some 5000 } },
          stitchOk := true }
        "in.mp4" [{ start := 0, stop := 10 }]
        "out.mp4").tempDirRemainsAtExit = false ∧
    (crop_and_stitch_video_segments
        { fileExists := fun _ => true,
          engine := fun _ =>
            { fast := { exitOk := true, creates := some 5000 },
              fallback := { exitOk := true, creates := some 5000 } },
          stitchOk := true }
        "in.mp4" [{ start := 0, stop := 10 }] "out.mp4").outputPresent = true :=
  (cleanup_policy
      { fileExists := fun _ => true,
        engine := fun _ =>
          { fast := { exitOk := true, creates := some 5000 },
            fallback := { exitOk := true, creates := some 5000 } },
        stitchOk := true }
      "in.mp4" [{ start := 0, stop := 10 }] "out.mp4").2.2.2 "out.mp4" rfl

end Trailmixer
